import Mathlib

/-!
Shallow embedding of the music-bot repository (`src/bot/bot.py` and
`src/scheduler/scheduler.py`): JSON values, file states, the subscriber
registry, the sent-album tracker, the ratings store and the daily-send and
command handlers, together with theorems checking the specification.
-/

namespace MusicBot

/-- JSON values as produced by `json.load`.  The data files of the bot use
null, booleans, integers, strings, arrays and objects; floats do not occur
and are not modelled. -/
inductive JVal where
  | null
  | bool (b : Bool)
  | int (n : Int)
  | str (s : String)
  | arr (xs : List JVal)
  | obj (fields : List (String × JVal))

mutual

/-- Decidable equality on JSON values (the derive handler does not support
this nested inductive, so it is spelled out). -/
def JVal.decEq : (a b : JVal) → Decidable (a = b)
  | .null, .null => isTrue rfl
  | .bool a, .bool b =>
      if h : a = b then isTrue (by rw [h])
      else isFalse (by intro hh; cases hh; exact h rfl)
  | .int a, .int b =>
      if h : a = b then isTrue (by rw [h])
      else isFalse (by intro hh; cases hh; exact h rfl)
  | .str a, .str b =>
      if h : a = b then isTrue (by rw [h])
      else isFalse (by intro hh; cases hh; exact h rfl)
  | .arr xs, .arr ys =>
      match JVal.decEqList xs ys with
      | isTrue h => isTrue (by rw [h])
      | isFalse h => isFalse (by intro hh; cases hh; exact h rfl)
  | .obj fs, .obj gs =>
      match JVal.decEqFields fs gs with
      | isTrue h => isTrue (by rw [h])
      | isFalse h => isFalse (by intro hh; cases hh; exact h rfl)
  | .null, .bool _ | .null, .int _ | .null, .str _ | .null, .arr _ | .null, .obj _
  | .bool _, .null | .bool _, .int _ | .bool _, .str _ | .bool _, .arr _ | .bool _, .obj _
  | .int _, .null | .int _, .bool _ | .int _, .str _ | .int _, .arr _ | .int _, .obj _
  | .str _, .null | .str _, .bool _ | .str _, .int _ | .str _, .arr _ | .str _, .obj _
  | .arr _, .null | .arr _, .bool _ | .arr _, .int _ | .arr _, .str _ | .arr _, .obj _
  | .obj _, .null | .obj _, .bool _ | .obj _, .int _ | .obj _, .str _ | .obj _, .arr _ =>
      isFalse (fun h => JVal.noConfusion h)

def JVal.decEqList : (xs ys : List JVal) → Decidable (xs = ys)
  | [], [] => isTrue rfl
  | [], _ :: _ => isFalse (fun h => List.noConfusion h)
  | _ :: _, [] => isFalse (fun h => List.noConfusion h)
  | x :: xs, y :: ys =>
      match JVal.decEq x y, JVal.decEqList xs ys with
      | isTrue h1, isTrue h2 => isTrue (by rw [h1, h2])
      | isFalse h1, _ => isFalse (by intro hh; cases hh; exact h1 rfl)
      | isTrue _, isFalse h2 => isFalse (by intro hh; cases hh; exact h2 rfl)

def JVal.decEqFields : (fs gs : List (String × JVal)) → Decidable (fs = gs)
  | [], [] => isTrue rfl
  | [], _ :: _ => isFalse (fun h => List.noConfusion h)
  | _ :: _, [] => isFalse (fun h => List.noConfusion h)
  | (k, v) :: fs, (k2, v2) :: gs =>
      if h0 : k = k2 then
        match JVal.decEq v v2, JVal.decEqFields fs gs with
        | isTrue h1, isTrue h2 => isTrue (by rw [h0, h1, h2])
        | isFalse h1, _ => isFalse (by intro hh; cases hh; exact h1 rfl)
        | isTrue _, isFalse h2 => isFalse (by intro hh; cases hh; exact h2 rfl)
      else isFalse (by intro hh; cases hh; exact h0 rfl)

end

instance : DecidableEq JVal := JVal.decEq

/-!
Python value semantics used by the bot: truthiness, `str(...)`, `int(...)`
and `==` against an `int`, restricted to the JSON values above.
-/

/-- Python truthiness of a JSON value (`if active:` and friends). -/
def truthy : JVal → Bool
  | .null => false
  | .bool b => b
  | .int n => n != 0
  | .str s => s != ""
  | .arr xs => !xs.isEmpty
  | .obj fs => !fs.isEmpty

/-- Python `str(...)` of a JSON value.  The bot only applies it to scalars
(identifiers are numbers or strings); the display form of containers is
not modelled. -/
def pyStr : JVal → String
  | .null => "None"
  | .bool b => if b then "True" else "False"
  | .int n => toString n
  | .str s => s
  | .arr _ => "<list>"
  | .obj _ => "<dict>"

/-- Python `v == n` for an `int` right-hand side (`chat_id in data`,
`x != chat_id`): numeric equality identifies `bool` with 0/1, and no other
JSON value equals an `int`. -/
def pyIntEq (v : JVal) (n : Int) : Bool :=
  match v with
  | .int m => m == n
  | .bool b => (if b then (1 : Int) else 0) == n
  | _ => false

/-- Python `.strip()`: drop surrounding whitespace.  Written with
structural list recursion so that it evaluates inside the kernel. -/
def stripWs (s : String) : String :=
  String.mk (((s.data.dropWhile Char.isWhitespace).reverse.dropWhile
    Char.isWhitespace).reverse)

/-- Python `int(s)` on a string: optional surrounding whitespace, an
optional sign, then decimal digits; `none` models the `ValueError` branch.
(Underscore digit separators are not modelled.) -/
def pyStrToInt (s : String) : Option Int :=
  let t := stripWs s
  let (sign, digits) :=
    if t.startsWith "-" then ((-1 : Int), t.drop 1)
    else if t.startsWith "+" then ((1 : Int), t.drop 1)
    else ((1 : Int), t)
  if digits.length > 0 && digits.all Char.isDigit then
    some (sign * (digits.foldl (fun acc c => acc * 10 + (c.toNat - 48)) 0 : Nat))
  else none

/-- Python `int(x)` on a JSON value: ints pass through, bools become 0/1,
strings are parsed, everything else raises (`none`). -/
def pyToInt : JVal → Option Int
  | .int n => some n
  | .bool b => some (if b then 1 else 0)
  | .str s => pyStrToInt s
  | _ => none

/-!
The persistent store.  A path on disk is in one of four states that
`load_json` distinguishes: absent, unreadable (open/read raises),
malformed (`json.load` raises), or holding a JSON document.
-/

inductive FileState where
  | absent
  | unreadable
  | malformed
  | content (v : JVal)
  deriving DecidableEq

/-- `load_json(path, default)`: the document if the file exists and parses,
the default on a missing, unreadable or malformed file; the broad
`except` makes it total. -/
def load_json (fs : FileState) (dflt : JVal) : JVal :=
  match fs with
  | .content v => v
  | _ => dflt

/-!
Python dict operations on association lists.  JSON objects parse to dicts
with unique keys; `d[k] = v` updates the existing binding in place and
appends a fresh key at the end (insertion order), which is exactly what
these list operations do to the first matching binding.
-/

/-- Python `d.get(k)` / `k in d` on an association list. -/
def alGet {α : Type} (d : List (String × α)) (k : String) : Option α :=
  (d.find? (fun p => p.1 == k)).map (fun p => p.2)

/-- Python `d[k] = v` on an association list. -/
def alSet {α : Type} (d : List (String × α)) (k : String) (v : α) : List (String × α) :=
  match d with
  | [] => [(k, v)]
  | (k1, v1) :: rest => if k1 == k then (k, v) :: rest else (k1, v1) :: alSet rest k v

/-!
Albums and identifiers (`album_ident`, lines 213-218 of `bot.py`).
An album record is a JSON object, i.e. a Python dict.
-/

abbrev Album := List (String × JVal)

/-- Python `album.get(k)` (default `None`). -/
def pyGet (a : Album) (k : String) : JVal :=
  (alGet a k).getD .null

/-- Python `.strip()` as applied to the composite-identifier fields; the
catalog stores these as strings (a non-string would raise in Python and is
outside the modelled domain). -/
def pyStrip (v : JVal) : String :=
  match v with
  | .str s => stripWs s
  | _ => ""

/-- `album_ident(album)`: explicit id when not `None`, else a truthy key,
else the trimmed `artist__album` composite. -/
def album_ident (a : Album) : String :=
  if pyGet a "id" = JVal.null then
    if truthy (pyGet a "key") then pyStr (pyGet a "key")
    else pyStrip (pyGet a "artist") ++ "__" ++ pyStrip (pyGet a "album")
  else pyStr (pyGet a "id")

/-!
Subscriber registry (`bot.py` lines 105-177).  Two on-disk shapes are
supported: a bare list of chat ids and a map from id strings to records.
-/

/-- `load_subscribers_raw()`: the subscriber document, defaulting to the
empty list. -/
def load_subscribers_raw (fs : FileState) : JVal :=
  load_json fs (.arr [])

/-- One step of the list-shape fold in `load_subscribers_set`:
`out.add(int(x))` inside `try`, skipping entries `int` rejects. -/
def addIfInt (out : Finset Int) (v : JVal) : Finset Int :=
  match pyToInt v with
  | some n => insert n out
  | none => out

/-- One step of the map-shape fold in `load_subscribers_set`: an entry is
active unless a dict record carries a falsy `active`; a key `int` rejects
is skipped. -/
def addIfActive (out : Finset Int) (kv : String × JVal) : Finset Int :=
  let active : JVal :=
    match kv.2 with
    | .obj m => (alGet m "active").getD (.bool true)
    | _ => .bool true
  if truthy active then
    match pyStrToInt kv.1 with
    | some n => insert n out
    | none => out
  else out

/-- `load_subscribers_set()`: the set of active chat ids under either
on-disk shape. -/
def load_subscribers_set (fs : FileState) : Finset Int :=
  match load_subscribers_raw fs with
  | .arr xs => xs.foldl addIfInt ∅
  | .obj fields => fields.foldl addIfActive ∅
  | _ => ∅

/-- `entry = data.get(key, {})` of `subscribe`, coerced to a dict by
`if not isinstance(entry, dict): entry = {}`. -/
def entryOf (fields : List (String × JVal)) (key : String) : List (String × JVal) :=
  match alGet fields key with
  | some (.obj e) => e
  | _ => []

/-- `entry.setdefault("subscribed_at", None)` of `subscribe`. -/
def withDefaultSubAt (entry1 : List (String × JVal)) : List (String × JVal) :=
  if (alGet entry1 "subscribed_at").isSome then entry1
  else entry1 ++ [("subscribed_at", JVal.null)]

/-- The record update of the map branch of `subscribe`: fetch the record,
set `active`, default `subscribed_at`. -/
def subscribeEntry (fields : List (String × JVal)) (key : String) : List (String × JVal) :=
  withDefaultSubAt (alSet (entryOf fields key) "active" (.bool true))

/-- `subscribe(chat_id)`: appends to the list shape when missing, sets
`active` (and a default `subscribed_at`) in the map shape, and writes
`[chat_id]` over any other document. -/
def subscribe (chatId : Int) (fs : FileState) : FileState :=
  match load_subscribers_raw fs with
  | .arr xs =>
      if xs.any (fun x => pyIntEq x chatId) then fs
      else .content (.arr (xs ++ [.int chatId]))
  | .obj fields =>
      let key := toString chatId
      .content (.obj (alSet fields key (.obj (subscribeEntry fields key))))
  | _ => .content (.arr [.int chatId])

/-- The record update of the map branch of `unsubscribe`: set `active` to false
in a dict record, replace a non-dict record by `{"active": false}`. -/
def deactivated (v : JVal) : JVal :=
  match v with
  | .obj e => .obj (alSet e "active" (.bool false))
  | _ => .obj [("active", JVal.bool false)]

/-- `unsubscribe(chat_id)`: filters the id out of the list shape, sets
`active` to false in the map shape (keeping the record), and leaves any
other document untouched. -/
def unsubscribe (chatId : Int) (fs : FileState) : FileState :=
  match load_subscribers_raw fs with
  | .arr xs =>
      if xs.any (fun x => pyIntEq x chatId) then
        .content (.arr (xs.filter (fun x => !pyIntEq x chatId)))
      else fs
  | .obj fields =>
      let key := toString chatId
      match alGet fields key with
      | some v => .content (.obj (alSet fields key (deactivated v)))
      | none => fs
  | _ => fs

/-!
Sent-album tracker and pair selection (`bot.py` lines 204-242).
-/

/-- `load_sent()`: the set of already-sent identifier strings. -/
def load_sent (fs : FileState) : Finset String :=
  match load_json fs (.arr []) with
  | .arr xs => (xs.map pyStr).toFinset
  | _ => ∅

/-- `save_sent(sent)`: writes `sorted(list(sent))`. -/
def save_sent (s : Finset String) : FileState :=
  .content (.arr ((s.sort (· ≤ ·)).map JVal.str))

/-- The list comprehension `[a for a in albums if album_ident(a) not in sent]`. -/
def remainingOf (albums : List Album) (sent : Finset String) : List Album :=
  albums.filter (fun a => decide (album_ident a ∉ sent))

def defaultAlbum : Album := []

/-- `pick_two_unique_unsent()`.  `random.sample(remaining, 2)` is modelled
by its outcome: two positions `i ≠ j` of `remaining` (theorems carry that
guarantee as a hypothesis); the function threads the persisted sent set in
and out in place of the file. -/
def pick_two_unique_unsent (i j : Nat) (albums : List Album) (sent : Finset String) :
    Option (Album × Album) × Finset String :=
  let remaining := remainingOf albums sent
  if remaining.length < 2 then (none, sent)
  else
    let a := remaining.getD i defaultAlbum
    let b := remaining.getD j defaultAlbum
    (some (a, b), insert (album_ident b) (insert (album_ident a) sent))

/-- Repeated calls of `pick_two_unique_unsent` over a fixed catalog, one
sample outcome per call, collecting the successful picks and the final
sent set. -/
def runPicks (albums : List Album) : List (Nat × Nat) → Finset String →
    List (Album × Album) × Finset String
  | [], sent => ([], sent)
  | ij :: rest, sent =>
      let r := pick_two_unique_unsent ij.1 ij.2 albums sent
      let t := runPicks albums rest r.2
      match r.1 with
      | none => t
      | some pr => (pr :: t.1, t.2)

/-- A sample outcome is what `random.sample(remaining, 2)` can produce:
two distinct positions of `remaining` — vacuous when the call is
exhausted and never reaches the sampler. -/
def validPickB (albums : List Album) (sent : Finset String) (i j : Nat) : Bool :=
  let n := (remainingOf albums sent).length
  decide (n < 2) || (decide (i < n) && decide (j < n) && decide (i ≠ j))

/-- Every sample outcome of a trace is valid at the state of its call. -/
def validTraceB (albums : List Album) : List (Nat × Nat) → Finset String → Bool
  | [], _ => true
  | ij :: rest, sent =>
      validPickB albums sent ij.1 ij.2 &&
        validTraceB albums rest (pick_two_unique_unsent ij.1 ij.2 albums sent).2

/-!
Outbound messages.  Text bodies stand in for the literal (Russian) reply
strings, whose wording no checked property depends on; an album delivery
records the receiving chat and the album record.
-/

inductive Msg where
  | text (user : Int) (tag : String)
  | album (user : Int) (a : Album)
  deriving DecidableEq

/-- `send_daily_albums()` (`bot.py` lines 318-331): no-op without
subscribers, an exhausted notice to each subscriber when the pick returns
`None`, otherwise both albums to each subscriber in order.  `subs` is the
iteration order of the loaded subscriber set; `i j` are the sample
outcome of the embedded pick. -/
def send_daily_albums (i j : Nat) (albums : List Album) (sent : Finset String)
    (subs : List Int) : List Msg × Finset String :=
  if subs.isEmpty then ([], sent)
  else
    let r := pick_two_unique_unsent i j albums sent
    match r.1 with
    | none => (subs.map (fun u => Msg.text u "albums_exhausted"), r.2)
    | some p => (subs.flatMap (fun u => [Msg.album u p.1, Msg.album u p.2]), r.2)

/-!
Ratings store and the `setrate` callback (`bot.py` lines 185-190 and
355-369).  `ratings.json` is a dict from user-id strings to dicts from
album identifiers to rating strings.
-/

abbrev Ratings := List (String × List (String × String))

/-- The confirmation dict of `set_rating`; display text elided, only the
keys (and the `KeyError` on any other rating value) matter. -/
def ratingLabels : List (String × String) :=
  [("bad", "resp_bad"), ("ok", "resp_ok"), ("super", "resp_super")]

/-- Split a character list at every pipe, accumulating the current field
reversed. -/
def splitPipeAux : List Char → List Char → List (List Char)
  | [], acc => [acc.reverse]
  | c :: cs, acc =>
      if c = '|' then acc.reverse :: splitPipeAux cs []
      else splitPipeAux cs (c :: acc)

/-- Python `s.split("|")` (no split limit). -/
def pySplitPipe (s : String) : List String :=
  (splitPipeAux s.data []).map String.mk

/-- Rejoin fields with pipes (for the remainder field of a limited split). -/
def joinPipe : List String → String
  | [] => ""
  | [x] => x
  | x :: xs => x ++ "|" ++ joinPipe xs

/-- Python `s.split("|", 2)`: at most 2 splits, the tail keeps its pipes. -/
def pySplitPipe2 (s : String) : List String :=
  let parts := pySplitPipe s
  if parts.length ≤ 3 then parts
  else parts.take 2 ++ [joinPipe (parts.drop 2)]

/-- Lookup of the rating one user gave one album in the store. -/
def getRating (ratings : Ratings) (user ident : String) : Option String :=
  match alGet ratings user with
  | some m => alGet m ident
  | none => none

/-- The `set_rating` callback handler on payload `call.data`: unpacks the
payload, writes the rating into the store (`save_ratings` persists the
returned map), then looks the rating up in the confirmation dict — `none`
as second component models the uncaught `KeyError`/`ValueError` ending the
update.  A failed unpack happens before any write. -/
def set_rating (chatId : Int) (payload : String) (ratings : Ratings) :
    Ratings × Option String :=
  match pySplitPipe2 payload with
  | [_, ident, rating] =>
      let user := toString chatId
      let userMap := (alGet ratings user).getD []
      (alSet ratings user (alSet userMap ident rating), alGet ratingLabels rating)
  | _ => (ratings, none)

/-!
The `/random` command (`bot.py` lines 402-413).  It reads only the
catalog; the environment also carries the sent-albums file so that the
frame property "the sent file is neither read nor written" is statable.
-/

structure RandomEnv where
  albums : List Album
  sentFile : FileState
  deriving DecidableEq

/-- `random_cmd(message)`: a too-few-albums notice when the catalog has
fewer than 2 entries, else `random.sample(albums, 2)` (outcome `i j`)
delivered in order.  The environment is returned unchanged: the handler
calls no save. -/
def random_cmd (i j : Nat) (chatId : Int) (env : RandomEnv) : List Msg × RandomEnv :=
  if env.albums.length < 2 then ([Msg.text chatId "too_few_albums"], env)
  else
    ([Msg.album chatId (env.albums.getD i defaultAlbum),
      Msg.album chatId (env.albums.getD j defaultAlbum)], env)

/-!
Association-list (Python dict) lemmas.
-/

theorem alGet_alSet_self {α : Type} (d : List (String × α)) (k : String) (v : α) :
    alGet (alSet d k v) k = some v := by
  induction d with
  | nil => simp [alGet, alSet]
  | cons p rest ih =>
      obtain ⟨k1, v1⟩ := p
      by_cases h : k1 = k
      · simp [alGet, alSet, h]
      · simp only [alSet, if_neg (by simpa using h)]
        simpa [alGet, List.find?, h] using ih

theorem alSet_eq_of_alGet {α : Type} {d : List (String × α)} {k : String} {v : α}
    (h : alGet d k = some v) : alSet d k v = d := by
  induction d with
  | nil => simp [alGet] at h
  | cons p rest ih =>
      obtain ⟨k1, v1⟩ := p
      by_cases hk : k1 = k
      · simp [alGet, List.find?, hk] at h
        simp [alSet, hk, h]
      · have hb : (k1 == k) = false := by simpa using hk
        simp only [alGet, List.find?, hb] at h
        simp [alSet, hb, ih h]

theorem alGet_append_left {α : Type} {l : List (String × α)} {k : String} {v : α}
    (l2 : List (String × α)) (h : alGet l k = some v) :
    alGet (l ++ l2) k = some v := by
  induction l with
  | nil => simp [alGet] at h
  | cons p rest ih =>
      by_cases hk : p.1 = k
      · simpa [alGet, List.find?, hk] using h
      · simp only [alGet, List.find?] at h ⊢
        rw [show (p.1 == k) = false by simpa using hk] at h ⊢
        exact ih h

theorem alGet_append_right {α : Type} {l : List (String × α)} {k : String}
    (l2 : List (String × α)) (h : alGet l k = none) :
    alGet (l ++ l2) k = alGet l2 k := by
  induction l with
  | nil => simp
  | cons p rest ih =>
      by_cases hk : p.1 = k
      · simp [alGet, List.find?, hk] at h
      · simp only [alGet, List.find?] at h ⊢
        rw [show (p.1 == k) = false by simpa using hk] at h ⊢
        exact ih h

/-!
General list lemmas.
-/

theorem any_filter_not {α : Type} (xs : List α) (p : α → Bool) :
    (xs.filter (fun x => !p x)).any p = false := by
  induction xs with
  | nil => simp
  | cons x rest ih =>
      by_cases h : p x
      · simp [List.filter, h, ih]
      · simp only [List.filter, show (!p x) = true by simp [h]]
        simp [List.any, h, ih]

theorem getD_mem {α : Type} {l : List α} {i : Nat} (h : i < l.length) (d : α) :
    l.getD i d ∈ l := by
  induction l generalizing i with
  | nil => simp at h
  | cons x rest ih =>
      cases i with
      | zero => simp
      | succ n =>
          have : n < rest.length := by simpa using h
          simpa using Or.inr (ih this)

/-!
Behaviour of one `pick_two_unique_unsent` call.
-/

theorem pick_of_small {i j : Nat} {albums : List Album} {sent : Finset String}
    (h : (remainingOf albums sent).length < 2) :
    pick_two_unique_unsent i j albums sent = (none, sent) := by
  simp [pick_two_unique_unsent, h]

theorem pick_of_large {i j : Nat} {albums : List Album} {sent : Finset String}
    (h : ¬ (remainingOf albums sent).length < 2) :
    pick_two_unique_unsent i j albums sent =
      (some ((remainingOf albums sent).getD i defaultAlbum,
             (remainingOf albums sent).getD j defaultAlbum),
       insert (album_ident ((remainingOf albums sent).getD j defaultAlbum))
         (insert (album_ident ((remainingOf albums sent).getD i defaultAlbum)) sent)) := by
  simp [pick_two_unique_unsent, h]

theorem pick_snd_subset (i j : Nat) (albums : List Album) (sent : Finset String) :
    sent ⊆ (pick_two_unique_unsent i j albums sent).2 := by
  by_cases h : (remainingOf albums sent).length < 2
  · rw [pick_of_small h]
  · rw [pick_of_large h]
    intro x hx
    exact Finset.mem_insert_of_mem (Finset.mem_insert_of_mem hx)

theorem mem_of_mem_remaining {a : Album} {albums : List Album} {sent : Finset String}
    (h : a ∈ remainingOf albums sent) : a ∈ albums ∧ album_ident a ∉ sent := by
  have h2 := List.mem_filter.mp h
  exact ⟨h2.1, by simpa using h2.2⟩

theorem validPickB_elim {albums : List Album} {sent : Finset String} {i j : Nat}
    (hvp : validPickB albums sent i j = true)
    (h : ¬ (remainingOf albums sent).length < 2) :
    i < (remainingOf albums sent).length ∧ j < (remainingOf albums sent).length ∧ i ≠ j := by
  have h2 : (i < (remainingOf albums sent).length ∧ j < (remainingOf albums sent).length) ∧
      ¬ i = j := by simpa [validPickB, h] using hvp
  exact ⟨h2.1.1, h2.1.2, h2.2⟩

/-!
Behaviour of call sequences (`runPicks`).
-/

theorem runPicks_cons_none {albums : List Album} {ij : Nat × Nat}
    {rest : List (Nat × Nat)} {sent : Finset String}
    (h : (pick_two_unique_unsent ij.1 ij.2 albums sent).1 = none) :
    runPicks albums (ij :: rest) sent =
      runPicks albums rest (pick_two_unique_unsent ij.1 ij.2 albums sent).2 := by
  simp [runPicks, h]

theorem runPicks_cons_some {albums : List Album} {ij : Nat × Nat}
    {rest : List (Nat × Nat)} {sent : Finset String} {pr : Album × Album}
    (h : (pick_two_unique_unsent ij.1 ij.2 albums sent).1 = some pr) :
    runPicks albums (ij :: rest) sent =
      (pr :: (runPicks albums rest (pick_two_unique_unsent ij.1 ij.2 albums sent).2).1,
       (runPicks albums rest (pick_two_unique_unsent ij.1 ij.2 albums sent).2).2) := by
  simp [runPicks, h]

theorem runPicks_subset (albums : List Album) (l : List (Nat × Nat)) (sent : Finset String) :
    sent ⊆ (runPicks albums l sent).2 := by
  induction l generalizing sent with
  | nil => simp [runPicks]
  | cons ij rest ih =>
      rcases hp : (pick_two_unique_unsent ij.1 ij.2 albums sent).1 with _ | pr
      · rw [runPicks_cons_none hp]
        exact (pick_snd_subset ij.1 ij.2 albums sent).trans (ih _)
      · rw [runPicks_cons_some hp]
        exact (pick_snd_subset ij.1 ij.2 albums sent).trans (ih _)

theorem runPicks_notin (albums : List Album) (l : List (Nat × Nat)) (sent : Finset String)
    (hv : validTraceB albums l sent = true) :
    ∀ pr ∈ (runPicks albums l sent).1,
      album_ident pr.1 ∉ sent ∧ album_ident pr.2 ∉ sent := by
  induction l generalizing sent with
  | nil => simp [runPicks]
  | cons ij rest ih =>
      simp only [validTraceB, Bool.and_eq_true] at hv
      obtain ⟨hvp, hvt⟩ := hv
      have hsub := pick_snd_subset ij.1 ij.2 albums sent
      rcases hp : (pick_two_unique_unsent ij.1 ij.2 albums sent).1 with _ | pr0
      · rw [runPicks_cons_none hp]
        intro pr hpr
        have h2 := ih _ hvt pr hpr
        exact ⟨fun hc => h2.1 (hsub hc), fun hc => h2.2 (hsub hc)⟩
      · rw [runPicks_cons_some hp]
        intro pr hpr
        rcases List.mem_cons.mp hpr with rfl | htail
        · have hsmall : ¬ (remainingOf albums sent).length < 2 := by
            intro hc
            rw [pick_of_small hc] at hp
            exact Option.noConfusion hp
          obtain ⟨hi, hj, _⟩ := validPickB_elim hvp hsmall
          have hpr0 : pr =
              ((remainingOf albums sent).getD ij.1 defaultAlbum,
               (remainingOf albums sent).getD ij.2 defaultAlbum) := by
            rw [pick_of_large hsmall] at hp
            exact (Option.some.inj hp).symm
          subst hpr0
          exact ⟨(mem_of_mem_remaining (getD_mem hi defaultAlbum)).2,
                 (mem_of_mem_remaining (getD_mem hj defaultAlbum)).2⟩
        · have h2 := ih _ hvt pr htail
          exact ⟨fun hc => h2.1 (hsub hc), fun hc => h2.2 (hsub hc)⟩

/-- Disjointness of the identifier pairs of two successful picks. -/
def pickDisj (p q : Album × Album) : Prop :=
  album_ident q.1 ≠ album_ident p.1 ∧ album_ident q.1 ≠ album_ident p.2 ∧
  album_ident q.2 ≠ album_ident p.1 ∧ album_ident q.2 ≠ album_ident p.2

theorem runPicks_pairwise (albums : List Album) (l : List (Nat × Nat)) (sent : Finset String)
    (hv : validTraceB albums l sent = true) :
    List.Pairwise pickDisj (runPicks albums l sent).1 := by
  induction l generalizing sent with
  | nil => simp [runPicks]
  | cons ij rest ih =>
      simp only [validTraceB, Bool.and_eq_true] at hv
      obtain ⟨hvp, hvt⟩ := hv
      rcases hp : (pick_two_unique_unsent ij.1 ij.2 albums sent).1 with _ | pr0
      · rw [runPicks_cons_none hp]
        exact ih _ hvt
      · rw [runPicks_cons_some hp]
        refine List.Pairwise.cons ?_ (ih _ hvt)
        intro q hq
        have hq2 := runPicks_notin albums rest _ hvt q hq
        have hsmall : ¬ (remainingOf albums sent).length < 2 := by
          intro hc
          rw [pick_of_small hc] at hp
          exact Option.noConfusion hp
        have hlarge := pick_of_large (i := ij.1) (j := ij.2) hsmall
        have hpr0 : pr0 =
            ((remainingOf albums sent).getD ij.1 defaultAlbum,
             (remainingOf albums sent).getD ij.2 defaultAlbum) := by
          rw [hlarge] at hp
          exact Option.some.inj hp.symm
        have hsnd : (pick_two_unique_unsent ij.1 ij.2 albums sent).2 =
            insert (album_ident ((remainingOf albums sent).getD ij.2 defaultAlbum))
              (insert (album_ident ((remainingOf albums sent).getD ij.1 defaultAlbum)) sent) := by
          rw [hlarge]
        have hmem1 : album_ident pr0.1 ∈ (pick_two_unique_unsent ij.1 ij.2 albums sent).2 := by
          rw [hsnd, hpr0]
          exact Finset.mem_insert_of_mem (Finset.mem_insert_self _ _)
        have hmem2 : album_ident pr0.2 ∈ (pick_two_unique_unsent ij.1 ij.2 albums sent).2 := by
          rw [hsnd, hpr0]
          exact Finset.mem_insert_self _ _
        exact ⟨fun hc => hq2.1 (hc ▸ hmem1), fun hc => hq2.1 (hc ▸ hmem2),
               fun hc => hq2.2 (hc ▸ hmem1), fun hc => hq2.2 (hc ▸ hmem2)⟩

theorem runPicks_exhausted (albums : List Album) (l : List (Nat × Nat)) (sent : Finset String)
    (h : (remainingOf albums sent).length < 2) :
    runPicks albums l sent = ([], sent) := by
  induction l with
  | nil => simp [runPicks]
  | cons ij rest ih =>
      have hp := pick_of_small (i := ij.1) (j := ij.2) h
      rw [runPicks_cons_none (by rw [hp])]
      rw [show (pick_two_unique_unsent ij.1 ij.2 albums sent).2 = sent by rw [hp]]
      exact ih

/-!
Idempotence of the registry operations.
-/

theorem subscribeEntry_active (fields : List (String × JVal)) (key : String) :
    alGet (subscribeEntry fields key) "active" = some (JVal.bool true) := by
  unfold subscribeEntry withDefaultSubAt
  by_cases h : (alGet (alSet (entryOf fields key) "active" (.bool true)) "subscribed_at").isSome
  · rw [if_pos h]
    exact alGet_alSet_self ..
  · rw [if_neg h]
    exact alGet_append_left _ (alGet_alSet_self ..)

theorem subscribeEntry_subAt (fields : List (String × JVal)) (key : String) :
    (alGet (subscribeEntry fields key) "subscribed_at").isSome = true := by
  unfold subscribeEntry withDefaultSubAt
  by_cases h : (alGet (alSet (entryOf fields key) "active" (.bool true)) "subscribed_at").isSome
  · rw [if_pos h]
    exact h
  · rw [if_neg h]
    have hn : alGet (alSet (entryOf fields key) "active" (.bool true)) "subscribed_at" = none := by
      cases hx : alGet (alSet (entryOf fields key) "active" (.bool true)) "subscribed_at" with
      | none => rfl
      | some v => rw [hx] at h; simp at h
    rw [alGet_append_right _ hn]
    rfl

theorem subscribeEntry_stable (fields : List (String × JVal)) (key : String) :
    subscribeEntry (alSet fields key (.obj (subscribeEntry fields key))) key =
      subscribeEntry fields key := by
  have he : entryOf (alSet fields key (.obj (subscribeEntry fields key))) key =
      subscribeEntry fields key := by
    unfold entryOf
    rw [alGet_alSet_self]
  conv_lhs => rw [subscribeEntry, he]
  rw [alSet_eq_of_alGet (subscribeEntry_active fields key)]
  unfold withDefaultSubAt
  rw [if_pos (subscribeEntry_subAt fields key)]

theorem subscribe_idem (chatId : Int) (fs : FileState) :
    subscribe chatId (subscribe chatId fs) = subscribe chatId fs := by
  rcases hraw : load_subscribers_raw fs with _ | b | n | s | xs | fields
  case arr =>
      by_cases hmem : xs.any (fun x => pyIntEq x chatId) = true
      · have h1 : subscribe chatId fs = fs := by
          simp [subscribe, hraw, hmem]
        rw [h1, h1]
      · have h1 : subscribe chatId fs = .content (.arr (xs ++ [.int chatId])) := by
          simp only [subscribe, hraw]
          rw [if_neg (by simp [hmem])]
        rw [h1]
        have hany : (xs ++ [JVal.int chatId]).any (fun x => pyIntEq x chatId) = true := by
          simp [List.any_append, pyIntEq]
        simp [subscribe, load_subscribers_raw, load_json, hany, h1]
  case obj =>
      have h1 : subscribe chatId fs =
          .content (.obj (alSet fields (toString chatId)
            (.obj (subscribeEntry fields (toString chatId))))) := by
        simp [subscribe, hraw]
      rw [h1]
      have hraw2 : load_subscribers_raw (FileState.content (.obj (alSet fields (toString chatId)
          (.obj (subscribeEntry fields (toString chatId)))))) =
          .obj (alSet fields (toString chatId)
            (.obj (subscribeEntry fields (toString chatId)))) := rfl
      simp only [subscribe, hraw2]
      rw [subscribeEntry_stable]
      rw [alSet_eq_of_alGet (alGet_alSet_self ..)]
  all_goals {
      have h1 : subscribe chatId fs = .content (.arr [.int chatId]) := by
        simp [subscribe, hraw]
      rw [h1]
      have hany : ([JVal.int chatId]).any (fun x => pyIntEq x chatId) = true := by
        simp [pyIntEq]
      simp [subscribe, load_subscribers_raw, load_json, hany] }

theorem deactivated_obj (v : JVal) :
    ∃ e, deactivated v = .obj e ∧ alGet e "active" = some (JVal.bool false) := by
  cases v with
  | obj e => exact ⟨alSet e "active" (.bool false), rfl, alGet_alSet_self ..⟩
  | null => exact ⟨[("active", JVal.bool false)], rfl, rfl⟩
  | bool b => exact ⟨[("active", JVal.bool false)], rfl, rfl⟩
  | int n => exact ⟨[("active", JVal.bool false)], rfl, rfl⟩
  | str s => exact ⟨[("active", JVal.bool false)], rfl, rfl⟩
  | arr xs => exact ⟨[("active", JVal.bool false)], rfl, rfl⟩

theorem deactivated_idem (v : JVal) : deactivated (deactivated v) = deactivated v := by
  obtain ⟨e, he, ha⟩ := deactivated_obj v
  rw [he]
  show JVal.obj (alSet e "active" (.bool false)) = JVal.obj e
  rw [alSet_eq_of_alGet ha]

theorem unsubscribe_idem (chatId : Int) (fs : FileState) :
    unsubscribe chatId (unsubscribe chatId fs) = unsubscribe chatId fs := by
  rcases hraw : load_subscribers_raw fs with _ | b | n | s | xs | fields
  case arr =>
      by_cases hmem : xs.any (fun x => pyIntEq x chatId) = true
      · have h1 : unsubscribe chatId fs =
            .content (.arr (xs.filter (fun x => !pyIntEq x chatId))) := by
          simp [unsubscribe, hraw, hmem]
        rw [h1]
        have hany := any_filter_not xs (fun x => pyIntEq x chatId)
        simp [unsubscribe, load_subscribers_raw, load_json, hany]
      · have h1 : unsubscribe chatId fs = fs := by
          simp only [unsubscribe, hraw]
          rw [if_neg (by simp [hmem])]
        rw [h1, h1]
  case obj =>
      rcases hk : alGet fields (toString chatId) with _ | v
      · have h1 : unsubscribe chatId fs = fs := by
          simp [unsubscribe, hraw, hk]
        rw [h1, h1]
      · have h1 : unsubscribe chatId fs =
            .content (.obj (alSet fields (toString chatId) (deactivated v))) := by
          simp [unsubscribe, hraw, hk]
        rw [h1]
        have hraw2 : load_subscribers_raw (FileState.content (.obj (alSet fields (toString chatId)
            (deactivated v)))) = .obj (alSet fields (toString chatId) (deactivated v)) := rfl
        simp only [unsubscribe, hraw2, alGet_alSet_self]
        rw [deactivated_idem]
        rw [alSet_eq_of_alGet (alGet_alSet_self ..)]
  all_goals {
      have h1 : unsubscribe chatId fs = fs := by
        simp [unsubscribe, hraw]
      rw [h1, h1] }

/-!
A concrete 4-album catalog for the worked example of the specification.
-/

def albumA : Album := [("id", JVal.str "A")]
def albumB : Album := [("id", JVal.str "B")]
def albumC : Album := [("id", JVal.str "C")]
def albumD : Album := [("id", JVal.str "D")]
def catalog4 : List Album := [albumA, albumB, albumC, albumD]

/-- First call of the worked example: sample outcome `(i1, j1)`, empty
sent record. -/
def examplePick1 (i1 j1 : Fin 4) : Option (Album × Album) × Finset String :=
  pick_two_unique_unsent i1.val j1.val catalog4 ∅

def examplePair1 (i1 j1 : Fin 4) : Album × Album :=
  (examplePick1 i1 j1).1.getD (defaultAlbum, defaultAlbum)

/-- Second call of the worked example: sample outcome `(i2, j2)` over the
2 albums that remain after the first call. -/
def examplePick2 (i1 j1 : Fin 4) (i2 j2 : Fin 2) : Option (Album × Album) × Finset String :=
  pick_two_unique_unsent i2.val j2.val catalog4 (examplePick1 i1 j1).2

def examplePair2 (i1 j1 : Fin 4) (i2 j2 : Fin 2) : Album × Album :=
  (examplePick2 i1 j1 i2 j2).1.getD (defaultAlbum, defaultAlbum)

/-- First half of the worked example: for every admissible sample outcome
the first call returns 2 distinct albums of the catalog and marks exactly
their identifiers sent. -/
def pickScenario4First : Prop :=
  ∀ i1 j1 : Fin 4, i1 ≠ j1 →
    (examplePick1 i1 j1).1.isSome = true ∧
    (examplePair1 i1 j1).1 ∈ catalog4 ∧
    (examplePair1 i1 j1).2 ∈ catalog4 ∧
    (examplePair1 i1 j1).1 ≠ (examplePair1 i1 j1).2 ∧
    (examplePick1 i1 j1).2 =
      insert (album_ident (examplePair1 i1 j1).2)
        (insert (album_ident (examplePair1 i1 j1).1) ∅)

/-- Second half of the worked example: the second call returns exactly the
2 remaining albums and leaves all 4 identifiers sent, and a third call
returns none and changes nothing. -/
def pickScenario4Second : Prop :=
  ∀ i1 j1 : Fin 4, i1 ≠ j1 → ∀ i2 j2 : Fin 2, i2 ≠ j2 →
    (examplePick2 i1 j1 i2 j2).1.isSome = true ∧
    (insert (examplePair2 i1 j1 i2 j2).1 {(examplePair2 i1 j1 i2 j2).2} : Finset Album) =
      (remainingOf catalog4 (examplePick1 i1 j1).2).toFinset ∧
    (examplePick2 i1 j1 i2 j2).2 = ({"A", "B", "C", "D"} : Finset String) ∧
    (pick_two_unique_unsent 0 1 catalog4 (examplePick2 i1 j1 i2 j2).2).1 = none ∧
    (pick_two_unique_unsent 0 1 catalog4 (examplePick2 i1 j1 i2 j2).2).2 =
      (examplePick2 i1 j1 i2 j2).2

/-- The worked example of the specification over a 4-album catalog. -/
def pickScenario4 : Prop := pickScenario4First ∧ pickScenario4Second

theorem pickScenario4_holds : pickScenario4 :=
  ⟨by unfold pickScenario4First; decide, by unfold pickScenario4Second; decide⟩

/-- Writing the sent record and loading it back restores the same set: the
in-place persistence of the pick loses nothing. -/
theorem load_sent_save_sent (s : Finset String) : load_sent (save_sent s) = s := by
  show (((s.sort (· ≤ ·)).map JVal.str).map pyStr).toFinset = s
  rw [List.map_map]
  rw [show pyStr ∘ JVal.str = id from funext fun x => rfl]
  rw [List.map_id]
  exact Finset.sort_toFinset _ _

/-!
The claims.
-/

/-- C1: `pick_unsent_pair` (`pick_two_unique_unsent`) computes the catalog
minus the already-sent identifiers; with fewer than 2 albums remaining it
returns none and leaves the sent record unchanged; otherwise it returns 2
catalog entries taken at the 2 distinct sampled positions of the
remaining list — entries of the catalog, not yet sent — and adds both
identifiers to the sent record, whose persisted form reloads to exactly
that set.  On a 4-album catalog with an empty sent record, the first call
returns 2 distinct albums and marks both sent, the second call returns
the remaining 2, and a third call returns none. -/
theorem C1_pick_unsent_pair (albums : List Album) (sent : Finset String) (i j : Nat) :
    ((remainingOf albums sent).length < 2 →
      pick_two_unique_unsent i j albums sent = (none, sent)) ∧
    (2 ≤ (remainingOf albums sent).length →
      i < (remainingOf albums sent).length →
      j < (remainingOf albums sent).length → i ≠ j →
      pick_two_unique_unsent i j albums sent =
        (some ((remainingOf albums sent).getD i defaultAlbum,
               (remainingOf albums sent).getD j defaultAlbum),
         insert (album_ident ((remainingOf albums sent).getD j defaultAlbum))
           (insert (album_ident ((remainingOf albums sent).getD i defaultAlbum)) sent)) ∧
      (remainingOf albums sent).getD i defaultAlbum ∈ albums ∧
      (remainingOf albums sent).getD j defaultAlbum ∈ albums ∧
      album_ident ((remainingOf albums sent).getD i defaultAlbum) ∉ sent ∧
      album_ident ((remainingOf albums sent).getD j defaultAlbum) ∉ sent) ∧
    load_sent (save_sent (pick_two_unique_unsent i j albums sent).2) =
      (pick_two_unique_unsent i j albums sent).2 ∧
    pickScenario4 := by
  refine ⟨fun h => pick_of_small h, fun h2 hi hj hij => ?_,
    load_sent_save_sent _, pickScenario4_holds⟩
  have h : ¬ (remainingOf albums sent).length < 2 := by omega
  have hmi := mem_of_mem_remaining (getD_mem hi defaultAlbum)
  have hmj := mem_of_mem_remaining (getD_mem hj defaultAlbum)
  exact ⟨pick_of_large h, hmi.1, hmj.1, hmi.2, hmj.2⟩

/-- C1 witness: the general part instantiated at the 4-album catalog with
an empty sent record and sample positions 0 and 1. -/
theorem C1_pick_unsent_pair_witness :
    pick_two_unique_unsent 0 1 catalog4 ∅ =
      (some (albumA, albumB), insert "B" (insert "A" (∅ : Finset String))) ∧
    albumA ∈ catalog4 ∧ albumB ∈ catalog4 ∧
    album_ident albumA ∉ (∅ : Finset String) ∧
    album_ident albumB ∉ (∅ : Finset String) := by
  have h := (C1_pick_unsent_pair catalog4 ∅ 0 1).2.1
    (by decide) (by decide) (by decide) (by decide)
  exact ⟨h.1.trans (by decide), by decide, by decide, by decide, by decide⟩

/-- C2: over any sequence of `pick_unsent_pair` calls on a fixed catalog,
no album identifier appears in the results of two different successful
picks, the sent set only grows, and once fewer than 2 unsent albums remain
every subsequent call returns the exhausted signal with the sent record
unchanged. -/
theorem C2_pick_sequence_invariants (albums : List Album) (trace : List (Nat × Nat))
    (sent : Finset String) (hv : validTraceB albums trace sent = true) :
    List.Pairwise pickDisj (runPicks albums trace sent).1 ∧
    sent ⊆ (runPicks albums trace sent).2 ∧
    ((remainingOf albums sent).length < 2 → runPicks albums trace sent = ([], sent)) :=
  ⟨runPicks_pairwise albums trace sent hv, runPicks_subset albums trace sent,
   fun h => runPicks_exhausted albums trace sent h⟩

/-- C2 witness: a 3-call trace over the 4-album catalog — two successful
picks followed by an exhausted call. -/
theorem C2_pick_sequence_invariants_witness :
    validTraceB catalog4 [(0, 1), (0, 1), (0, 0)] ∅ = true ∧
    List.Pairwise pickDisj (runPicks catalog4 [(0, 1), (0, 1), (0, 0)] ∅).1 ∧
    (∅ : Finset String) ⊆ (runPicks catalog4 [(0, 1), (0, 1), (0, 0)] ∅).2 :=
  ⟨by decide,
   (C2_pick_sequence_invariants catalog4 [(0, 1), (0, 1), (0, 0)] ∅ (by decide)).1,
   (C2_pick_sequence_invariants catalog4 [(0, 1), (0, 1), (0, 0)] ∅ (by decide)).2.1⟩

/-- C3: `subscribe` is idempotent — a second call for the same chat id
leaves the active-subscriber set of `load_subscribers_set` unchanged — and
it preserves the on-disk shape (list stays list, map stays map) of the
existing file. -/
theorem C3_subscribe_idempotent (chatId : Int) (fs : FileState) :
    load_subscribers_set (subscribe chatId (subscribe chatId fs)) =
      load_subscribers_set (subscribe chatId fs) ∧
    (∀ xs, load_subscribers_raw fs = .arr xs →
      ∃ ys, load_subscribers_raw (subscribe chatId fs) = .arr ys) ∧
    (∀ m, load_subscribers_raw fs = .obj m →
      ∃ m2, load_subscribers_raw (subscribe chatId fs) = .obj m2) := by
  refine ⟨congrArg load_subscribers_set (subscribe_idem chatId fs), ?_, ?_⟩
  · intro xs hraw
    by_cases hmem : xs.any (fun x => pyIntEq x chatId) = true
    · refine ⟨xs, ?_⟩
      rw [show subscribe chatId fs = fs by simp [subscribe, hraw, hmem]]
      exact hraw
    · refine ⟨xs ++ [.int chatId], ?_⟩
      rw [show subscribe chatId fs = .content (.arr (xs ++ [.int chatId])) by
        simp only [subscribe, hraw]
        rw [if_neg (by simp [hmem])]]
      rfl
  · intro m hraw
    refine ⟨alSet m (toString chatId) (.obj (subscribeEntry m (toString chatId))), ?_⟩
    rw [show subscribe chatId fs = .content (.obj (alSet m (toString chatId)
      (.obj (subscribeEntry m (toString chatId))))) by simp [subscribe, hraw]]
    rfl

/-- C3 witness: subscribing chat 111 twice to the list-shape file `[222]`
equals subscribing once, and the shape stays a list. -/
theorem C3_subscribe_idempotent_witness :
    load_subscribers_set (subscribe 111 (subscribe 111 (.content (.arr [JVal.int 222])))) =
      load_subscribers_set (subscribe 111 (.content (.arr [JVal.int 222]))) ∧
    ∃ ys, load_subscribers_raw (subscribe 111 (.content (.arr [JVal.int 222]))) = .arr ys :=
  ⟨(C3_subscribe_idempotent 111 (.content (.arr [JVal.int 222]))).1,
   (C3_subscribe_idempotent 111 (.content (.arr [JVal.int 222]))).2.1 [JVal.int 222] rfl⟩

/-- Shape discriminators for the subscriber document. -/
def isListShape (fs : FileState) : Bool :=
  match load_subscribers_raw fs with
  | .arr _ => true
  | _ => false

def isMapShape (fs : FileState) : Bool :=
  match load_subscribers_raw fs with
  | .obj _ => true
  | _ => false

/-- C4 counterexample: with the subscriber file absent, `subscribe(111)`
creates the file in the bare-list shape, not in the map shape the claim
asserts. -/
theorem C4_counterexample_absent_creates_list :
    isMapShape (subscribe 111 FileState.absent) = false ∧
    isListShape (subscribe 111 FileState.absent) = true := by
  exact ⟨rfl, rfl⟩

/-- C4 (amended): when the subscriber file is absent, `subscribe(id)`
creates it in the bare-list shape `[id]` (the missing file loads as the
default empty list, whose branch appends the id and saves the list). -/
theorem C4_absent_creates_list_shape (chatId : Int) :
    subscribe chatId FileState.absent = .content (.arr [.int chatId]) := rfl

/-- C5: `unsubscribe` removes the id from a list-shape file (so `[111, 222]`
becomes `[222]`), while on a map-shape file it keeps the record and sets
its `active` flag to false (so a true flag of key "111" becomes false);
in both shapes — in fact on any file — a second call changes nothing. -/
theorem C5_unsubscribe_shapes (chatId : Int) (fs : FileState) :
    unsubscribe 111 (.content (.arr [JVal.int 111, JVal.int 222])) =
      .content (.arr [JVal.int 222]) ∧
    unsubscribe 111 (.content (.obj [("111", JVal.obj [("active", JVal.bool true)])])) =
      .content (.obj [("111", JVal.obj [("active", JVal.bool false)])]) ∧
    (∀ xs, load_subscribers_raw fs = .arr xs →
      load_subscribers_raw (unsubscribe chatId fs) =
        .arr (xs.filter (fun x => !pyIntEq x chatId))) ∧
    (∀ m e, load_subscribers_raw fs = .obj m →
      alGet m (toString chatId) = some (.obj e) →
      load_subscribers_raw (unsubscribe chatId fs) =
        .obj (alSet m (toString chatId) (.obj (alSet e "active" (.bool false))))) ∧
    unsubscribe chatId (unsubscribe chatId fs) = unsubscribe chatId fs := by
  refine ⟨by decide, by decide, ?_, ?_, unsubscribe_idem chatId fs⟩
  · intro xs hraw
    by_cases hmem : xs.any (fun x => pyIntEq x chatId) = true
    · rw [show unsubscribe chatId fs =
          .content (.arr (xs.filter (fun x => !pyIntEq x chatId))) by
        simp [unsubscribe, hraw, hmem]]
      rfl
    · rw [show unsubscribe chatId fs = fs by
        simp only [unsubscribe, hraw]
        rw [if_neg (by simp [hmem])]]
      rw [hraw]
      have hall := List.any_eq_false.mp (by simpa using hmem)
      rw [List.filter_eq_self.mpr (fun x hx => by simpa using hall x hx)]
  · intro m e hraw hk
    rw [show unsubscribe chatId fs =
        .content (.obj (alSet m (toString chatId) (deactivated (.obj e)))) by
      simp [unsubscribe, hraw, hk]]
    rfl

/-- C5 witness: the map-shape behaviour instantiated at the very
example file. -/
theorem C5_unsubscribe_shapes_witness :
    load_subscribers_raw (unsubscribe 111
        (.content (.obj [("111", JVal.obj [("active", JVal.bool true)])]))) =
      .obj (alSet [("111", JVal.obj [("active", JVal.bool true)])] (toString (111 : Int))
        (.obj (alSet [("active", JVal.bool true)] "active" (.bool false)))) :=
  (C5_unsubscribe_shapes 111
      (.content (.obj [("111", JVal.obj [("active", JVal.bool true)])]))).2.2.2.1
    [("111", JVal.obj [("active", JVal.bool true)])] [("active", JVal.bool true)]
    rfl (by decide)

/-- C6: `load_json(path, default)` returns the given default whenever the
file is missing, unreadable or malformed — and, being a total function of
the file state, never raises. -/
theorem C6_load_json_default (dflt : JVal) :
    load_json FileState.absent dflt = dflt ∧
    load_json FileState.unreadable dflt = dflt ∧
    load_json FileState.malformed dflt = dflt :=
  ⟨rfl, rfl, rfl⟩

/-- C7: `album_ident` is a deterministic function of the record with
precedence id over key over the trimmed `artist__album` composite, where
"has an id" means the id is present and not `None` (so id 0 counts) and
"has a key" means the key is truthy (so an empty-string key falls through
to the composite). -/
theorem C7_album_ident_precedence (a : Album) :
    (pyGet a "id" ≠ JVal.null → album_ident a = pyStr (pyGet a "id")) ∧
    (pyGet a "id" = JVal.null → truthy (pyGet a "key") = true →
      album_ident a = pyStr (pyGet a "key")) ∧
    (pyGet a "id" = JVal.null → truthy (pyGet a "key") = false →
      album_ident a = pyStrip (pyGet a "artist") ++ "__" ++ pyStrip (pyGet a "album")) ∧
    album_ident [("id", JVal.int 0)] = "0" ∧
    album_ident [("key", JVal.str ""), ("artist", JVal.str " The Artist "),
      ("album", JVal.str "The Album ")] = "The Artist__The Album" := by
  refine ⟨?_, ?_, ?_, by decide, by decide⟩
  · intro h
    simp [album_ident, h]
  · intro h ht
    simp [album_ident, h, ht]
  · intro h ht
    simp [album_ident, h, ht]

/-- C7 witness: the id branch evaluated at the edge record with id 0. -/
theorem C7_album_ident_precedence_witness :
    album_ident [("id", JVal.int 0)] = pyStr (pyGet [("id", JVal.int 0)] "id") :=
  (C7_album_ident_precedence [("id", JVal.int 0)]).1 (by decide)

/-- A map of one element of a list is a sublist of the flat-mapped list. -/
theorem sublist_flatMap {α β : Type} (f : α → List β) {l : List α} {x : α} (hx : x ∈ l) :
    List.Sublist (f x) (l.flatMap f) := by
  induction l with
  | nil => simp at hx
  | cons y rest ih =>
      rw [List.flatMap_cons]
      rcases List.mem_cons.mp hx with rfl | h2
      · exact List.sublist_append_left _ _
      · exact (ih h2).trans (List.sublist_append_right _ _)

/-- C8: on a daily fire with no active subscribers the job does nothing;
with subscribers and an exhausted pick it sends the exhausted notice to
every subscriber and delivers no album; with a successful pick it delivers
both picked albums, in sequence, to every subscriber. -/
theorem C8_daily_send (i j : Nat) (albums : List Album) (sent : Finset String)
    (subs : List Int) :
    (subs = [] → send_daily_albums i j albums sent subs = ([], sent)) ∧
    (subs ≠ [] → (remainingOf albums sent).length < 2 →
      (∀ u ∈ subs,
        Msg.text u "albums_exhausted" ∈ (send_daily_albums i j albums sent subs).1) ∧
      (∀ u a, Msg.album u a ∉ (send_daily_albums i j albums sent subs).1)) ∧
    (subs ≠ [] → ∀ p, (pick_two_unique_unsent i j albums sent).1 = some p →
      ∀ u ∈ subs, List.Sublist [Msg.album u p.1, Msg.album u p.2]
        (send_daily_albums i j albums sent subs).1) := by
  refine ⟨?_, ?_, ?_⟩
  · intro h
    subst h
    rfl
  · intro hne hsmall
    have hemp : subs.isEmpty = false := by
      cases subs
      · exact absurd rfl hne
      · rfl
    have hpick := pick_of_small (i := i) (j := j) hsmall
    have hmsg : (send_daily_albums i j albums sent subs).1 =
        subs.map (fun u => Msg.text u "albums_exhausted") := by
      simp [send_daily_albums, hemp, hpick]
    constructor
    · intro u hu
      rw [hmsg]
      exact List.mem_map_of_mem _ hu
    · intro u a hmem
      rw [hmsg] at hmem
      obtain ⟨u2, _, habs⟩ := List.mem_map.mp hmem
      exact Msg.noConfusion habs
  · intro hne p hp u hu
    have hemp : subs.isEmpty = false := by
      cases subs
      · exact absurd rfl hne
      · rfl
    have hmsg : (send_daily_albums i j albums sent subs).1 =
        subs.flatMap (fun u => [Msg.album u p.1, Msg.album u p.2]) := by
      simp [send_daily_albums, hemp, hp]
    rw [hmsg]
    exact sublist_flatMap (fun v => [Msg.album v p.1, Msg.album v p.2]) hu

/-- C8 witness: one subscriber, the 4-album catalog, an empty sent record:
the fire delivers both picked albums to the subscriber in sequence. -/
theorem C8_daily_send_witness :
    List.Sublist [Msg.album 7 albumA, Msg.album 7 albumB]
      (send_daily_albums 0 1 catalog4 ∅ [7]).1 :=
  (C8_daily_send 0 1 catalog4 ∅ [7]).2.2 (by decide) (albumA, albumB) (by decide)
    7 (by decide)

/-- C9: for a callback payload `setrate|identifier|value` the handler
writes the value into the ratings map of the calling user and persists it before any
validation: with a value outside bad/ok/super the confirmation lookup
fails (second component none) while the returned — already saved — store
carries the invalid rating, so the store is not left unchanged on this
error. -/
theorem C9_setrate_persists_before_validation (chatId : Int)
    (ident value payload : String) (ratings : Ratings)
    (hsplit : pySplitPipe2 payload = ["setrate", ident, value])
    (hbad : alGet ratingLabels value = none) :
    getRating (set_rating chatId payload ratings).1 (toString chatId) ident = some value ∧
    (set_rating chatId payload ratings).2 = none ∧
    (getRating ratings (toString chatId) ident ≠ some value →
      (set_rating chatId payload ratings).1 ≠ ratings) := by
  have heq : set_rating chatId payload ratings =
      (alSet ratings (toString chatId)
        (alSet ((alGet ratings (toString chatId)).getD []) ident value),
       alGet ratingLabels value) := by
    simp [set_rating, hsplit]
  have hget : getRating (set_rating chatId payload ratings).1 (toString chatId) ident =
      some value := by
    rw [heq]
    show getRating (alSet ratings (toString chatId)
      (alSet ((alGet ratings (toString chatId)).getD []) ident value)) (toString chatId)
      ident = some value
    unfold getRating
    rw [alGet_alSet_self]
    exact alGet_alSet_self ..
  refine ⟨hget, by rw [heq]; exact hbad, ?_⟩
  intro hne hcontra
  apply hne
  rw [← hcontra]
  exact hget

/-- C9 witness: rating value "meh" on an empty store — persisted, with the
confirmation lookup failing. -/
theorem C9_setrate_persists_before_validation_witness :
    getRating (set_rating 42 "setrate|alb1|meh" []).1 (toString (42 : Int)) "alb1" =
      some "meh" ∧
    (set_rating 42 "setrate|alb1|meh" []).2 = none := by
  have h := C9_setrate_persists_before_validation 42 "alb1" "meh" "setrate|alb1|meh" []
    (by decide) (by decide)
  exact ⟨h.1, h.2.1⟩

/-- C10: `/random` samples from the full catalog ignoring the sent record:
its output is independent of the sent file, the sent file comes back
unchanged, the delivered albums come from the whole catalog, and it can
return an album whose identifier is already marked sent. -/
theorem C10_random_ignores_sent (i j : Nat) (chatId : Int) (albums : List Album)
    (s1 s2 : FileState) :
    (random_cmd i j chatId ⟨albums, s1⟩).1 = (random_cmd i j chatId ⟨albums, s2⟩).1 ∧
    (random_cmd i j chatId ⟨albums, s1⟩).2.sentFile = s1 ∧
    (2 ≤ albums.length → i < albums.length →
      (random_cmd i j chatId ⟨albums, s1⟩).1.head? =
        some (Msg.album chatId (albums.getD i defaultAlbum)) ∧
      albums.getD i defaultAlbum ∈ albums) ∧
    (Msg.album 7 albumA ∈
      (random_cmd 0 1 7 ⟨catalog4, save_sent {album_ident albumA}⟩).1 ∧
     album_ident albumA ∈ load_sent (save_sent {album_ident albumA})) := by
  refine ⟨?_, ?_, ?_, ?_, ?_⟩
  · by_cases h : albums.length < 2 <;> simp [random_cmd, h]
  · by_cases h : albums.length < 2 <;> simp [random_cmd, h]
  · intro h2 hi
    have h : ¬ albums.length < 2 := by omega
    constructor
    · simp [random_cmd, h]
    · exact getD_mem hi defaultAlbum
  · decide
  · rw [load_sent_save_sent]
    exact Finset.mem_singleton_self _

/-- C10 witness: the full-catalog sampling conjunct at sample position 0
on the 4-album catalog. -/
theorem C10_random_ignores_sent_witness :
    (random_cmd 0 1 9 ⟨catalog4, FileState.absent⟩).1.head? =
      some (Msg.album 9 (catalog4.getD 0 defaultAlbum)) ∧
    catalog4.getD 0 defaultAlbum ∈ catalog4 :=
  (C10_random_ignores_sent 0 1 9 catalog4 FileState.absent FileState.absent).2.2.1
    (by decide) (by decide)

end MusicBot
